import Mathlib

/-!
Verification of the Sketchflow repository against its specification.

The definitions below are shallow embeddings of the TypeScript source:
  * `src/services/geminiService.ts` — WAV header construction
    (`createWavHeader`, used by `generateDialogueSpeech`), the
    `analyzeScript` JSON-parse boundary, and `chatWithGemini`;
  * `src/unnamed/part_000` (the application controller) — the scene data
    model and the handlers `handleScriptSubmit`,
    `handleGenerateAllStoryboards`, `handleApproveScene`,
    `handleUpdatePrompt`, `handleGenerateFinalVideo`;
  * `src/components/ChatBot.tsx` — `handleSend`.

External provider calls are modelled as explicit function parameters
returning `Except`/`Option` values, and every handler additionally
returns the list of provider calls it issued, so that "no provider call"
claims are provable.  JavaScript truthiness on optional strings
(`a || b`, `!x`) is modelled by `jsOrElse` / `truthyStr`.
Machine 32/16-bit stores of `DataView.setUint32/16` are modelled on `Nat`
with explicit `% 2 ^ 32` where the stored value is not a small constant.
-/

/-! ## Byte-level encoders (DataView.setUint32 / setUint16 semantics) -/

/-- Little-endian 4-byte encoding of `v % 2^32`, as `DataView.setUint32 (_, v, true)`
lays the bytes out in memory. -/
def u32le (v : Nat) : List Nat :=
  [v % 256, v / 256 % 256, v / 65536 % 256, v / 16777216 % 256]

/-- Big-endian 4-byte encoding of `v % 2^32`, as `DataView.setUint32 (_, v, false)`
lays the bytes out in memory. -/
def u32be (v : Nat) : List Nat :=
  [v / 16777216 % 256, v / 65536 % 256, v / 256 % 256, v % 256]

/-- Little-endian 2-byte encoding of `v % 2^16`, as `DataView.setUint16 (_, v, true)`. -/
def u16le (v : Nat) : List Nat :=
  [v % 256, v / 256 % 256]

/-- ASCII byte values of a string (all characters here are ASCII). -/
def asciiBytes (s : String) : List Nat := s.data.map Char.toNat

/-! ## Audio container encoder (`createWavHeader`, geminiService.ts lines 28–50) -/

/-- `const sampleRate = 24000` in `createWavHeader`. -/
def sampleRate : Nat := 24000

/-- `const numChannels = 1` in `createWavHeader`. -/
def numChannels : Nat := 1

/-- `const bitsPerSample = 16` in `createWavHeader`. -/
def bitsPerSample : Nat := 16

/-- The 44-byte WAV header exactly as `createWavHeader` writes it through a
`DataView` over a 44-byte `ArrayBuffer`: each `setUint32`/`setUint16`
call appears in offset order.  The two fields that depend on the PCM
length are stored modulo `2 ^ 32` (ToUint32 conversion of `setUint32`);
the remaining fields are small constants. -/
def createWavHeader (pcmDataLength : Nat) : List Nat :=
  u32be 0x52494646                                          -- offset 0: "RIFF"
  ++ u32le ((36 + pcmDataLength) % 2 ^ 32)                  -- offset 4: file size
  ++ u32be 0x57415645                                       -- offset 8: "WAVE"
  ++ u32be 0x666d7420                                       -- offset 12: "fmt "
  ++ u32le 16                                               -- offset 16: subchunk1size
  ++ u16le 1                                                -- offset 20: PCM format
  ++ u16le numChannels                                      -- offset 22
  ++ u32le sampleRate                                       -- offset 24
  ++ u32le (sampleRate * numChannels * (bitsPerSample / 8)) -- offset 28: byte rate
  ++ u16le (numChannels * (bitsPerSample / 8))              -- offset 32: block align
  ++ u16le bitsPerSample                                    -- offset 34
  ++ u32be 0x64617461                                       -- offset 36: "data"
  ++ u32le (pcmDataLength % 2 ^ 32)                         -- offset 40: data size

/-- The byte stream `generateDialogueSpeech` puts into the audio blob
(geminiService.ts lines 154–156): the WAV header for the PCM length,
followed by the PCM bytes. -/
def wavBytes (pcm : List Nat) : List Nat :=
  createWavHeader pcm.length ++ pcm

/-- Layout asserted by the spec for the encoder output on PCM input `pcm`
(`L = pcm.length`): exactly `44 + L` bytes; ASCII "RIFF", little-endian
`36 + L`, "WAVE", "fmt ", LE 16, LE 1 (PCM), LE 1 (channels), LE 24000
(sample rate), LE 48000 (byte rate), LE 2 (block align), LE 16 (bits per
sample), "data", LE `L`, then the PCM bytes.  The last four conjuncts
tie the literal byte values to the ASCII tags. -/
def wavSpec (pcm : List Nat) : Prop :=
  (wavBytes pcm).length = 44 + pcm.length ∧
  wavBytes pcm =
    [0x52, 0x49, 0x46, 0x46] ++ u32le (36 + pcm.length) ++
    [0x57, 0x41, 0x56, 0x45] ++ [0x66, 0x6d, 0x74, 0x20] ++
    u32le 16 ++ u16le 1 ++ u16le 1 ++ u32le 24000 ++ u32le 48000 ++
    u16le 2 ++ u16le 16 ++ [0x64, 0x61, 0x74, 0x61] ++
    u32le pcm.length ++ pcm ∧
  asciiBytes "RIFF" = [0x52, 0x49, 0x46, 0x46] ∧
  asciiBytes "WAVE" = [0x57, 0x41, 0x56, 0x45] ∧
  asciiBytes "fmt " = [0x66, 0x6d, 0x74, 0x20] ∧
  asciiBytes "data" = [0x64, 0x61, 0x74, 0x61]

/-- C1: for every PCM byte length `L ≥ 0` (such that the RIFF size field
`36 + L` fits the 32-bit field it is stored in), the audio container
encoder emits exactly `44 + L` bytes: a 44-byte header with the tags
"RIFF"/"WAVE"/"fmt "/"data" and the little-endian fields
`36 + L`, 16, 1, 1, 24000, 48000, 2, 16, `L` at their specified offsets,
followed by the `L` PCM bytes. -/
theorem createWavHeader_layout (pcm : List Nat)
    (h : 36 + pcm.length < 2 ^ 32) : wavSpec pcm := by
  have hL : pcm.length < 2 ^ 32 := by omega
  refine ⟨?_, ?_, by decide, by decide, by decide, by decide⟩
  · simp [wavSpec, wavBytes, createWavHeader, u32le, u32be, u16le]
    omega
  · unfold wavBytes createWavHeader
    rw [Nat.mod_eq_of_lt h, Nat.mod_eq_of_lt hL]
    norm_num [u32le, u32be, u16le, sampleRate, numChannels, bitsPerSample]

/-- Concrete instance of `createWavHeader_layout` at the two-byte PCM
input `[7, 8]`. -/
theorem createWavHeader_layout_witness :
    36 + ([7, 8] : List Nat).length < 2 ^ 32 ∧ wavSpec [7, 8] :=
  ⟨by norm_num, createWavHeader_layout [7, 8] (by norm_num)⟩

/-! ## JavaScript truthiness helpers -/

/-- JavaScript `a || b` for a possibly-undefined string `a`: falls back to
`b` exactly when `a` is `undefined` or the empty string. -/
def jsOrElse : Option String → String → String
  | none, d => d
  | some s, d => if s = "" then d else s

/-- JavaScript truthiness of a possibly-undefined string field:
`true` exactly when the field is present and non-empty. -/
def truthyStr : Option String → Bool
  | none => false
  | some s => !(s == "")

/-- JavaScript `String.prototype.trim`: strip leading and trailing
whitespace (executable model over the character list). -/
def jsTrim (s : String) : String :=
  String.mk (((s.data.dropWhile Char.isWhitespace).reverse.dropWhile
    Char.isWhitespace).reverse)

/-! ## Data model (types.ts) -/

/-- `ImageSize` from types.ts: `'1K' | '2K' | '4K'`. -/
inductive ImageSize where
  | size1K
  | size2K
  | size4K
deriving DecidableEq, Repr

/-- `Scene` from types.ts.  Optional TS fields become `Option String`;
`order` is a JS number coming from provider JSON, modelled as `Int`. -/
structure Scene where
  id : String
  order : Int
  description : String
  dialogue : String
  storyboardImageUrl : Option String := none
  storyboardPrompt : Option String := none
  videoUrl : Option String := none
  audioUrl : Option String := none
  isApproved : Bool
deriving DecidableEq, Repr

/-- `Project` from types.ts. -/
structure Project where
  title : String
  script : String
  scenes : List Scene
deriving DecidableEq, Repr

/-- The controller's React state (part_000 lines 18–24), restricted to the
fields the claims are about. -/
structure AppState where
  project : Option Project
  loading : Option String
  error : Option String
  scriptInput : String
  hasApiKey : Bool
deriving DecidableEq, Repr

/-- A provider call issued by a handler.  Handlers return the ordered list
of the calls they issued, so "no provider call" claims are statements
about that list. -/
inductive Call where
  | genImage (prompt : String)
  | genVideo (prompt : String) (image : String)
  | genSpeech (text : String)
deriving DecidableEq, Repr

/-! ## `analyzeScript` JSON-parse boundary (geminiService.ts lines 54–77) -/

/-- One element of the provider's structured-output array for script
analysis: `{order, description, dialogue}`.  `order` is `Option Int`
because the parsed JSON value may be absent at runtime. -/
structure SceneData where
  order : Option Int
  description : String
  dialogue : String
deriving DecidableEq, Repr

/-- The result-processing tail of `analyzeScript`
(`return JSON.parse(response.text || "[]")`): the host `JSON.parse` is
the explicit parameter `parse` (it either returns a parsed array or
throws, i.e. `Except.error`), and `responseText` is the provider
response's possibly-undefined `text`.  The `"[]"` fallback applies
exactly when `responseText` is JS-falsy; there is no try/catch, so a
parse error propagates out of `analyzeScript`. -/
def analyzeScript (parse : String → Except String (List SceneData))
    (responseText : Option String) : Except String (List SceneData) :=
  parse (jsOrElse responseText "[]")

/-- Model of the host `JSON.parse` at the inputs exercised by the theorems
below: the literal `"[]"` parses to the empty array, and the non-JSON
text `"oops"` (like any other text not hitting a case) raises a
SyntaxError. -/
def jsonParseModel : String → Except String (List SceneData)
  | "[]" => .ok []
  | _ => .error "SyntaxError: unexpected token"

/-- C2 counterexample: a provider response whose text is the non-empty,
invalid-JSON string `"oops"` makes `analyzeScript` fail — the text is
passed to `JSON.parse` unprotected, so the empty-array fallback does
not apply and the parse error propagates.  The claim that
`analyzeScript` "does not fail" on every invalid-JSON response text is
therefore false. -/
theorem analyzeScript_fails_on_invalid_json :
    analyzeScript jsonParseModel (some "oops") =
      .error "SyntaxError: unexpected token" ∧
    ∀ scenes, analyzeScript jsonParseModel (some "oops") ≠ .ok scenes := by
  refine ⟨rfl, fun scenes h => ?_⟩
  simp [analyzeScript, jsOrElse, jsonParseModel] at h

/-- C2 amended: the empty-array fallback applies exactly at the JS-falsy
boundary of the response text.  If the text is absent or empty,
`analyzeScript` parses `"[]"` — hence, since `"[]"` is valid JSON for
the empty array, it succeeds with the empty scene list.  For every
non-empty response text `t`, `analyzeScript` returns `JSON.parse t`
unprotected, so an invalid non-empty text fails. -/
theorem analyzeScript_fallback_boundary
    (parse : String → Except String (List SceneData)) (t : String)
    (hparse : parse "[]" = .ok []) (ht : t ≠ "") :
    analyzeScript parse none = .ok [] ∧
    analyzeScript parse (some "") = .ok [] ∧
    analyzeScript parse (some t) = parse t := by
  refine ⟨?_, ?_, ?_⟩ <;> simp [analyzeScript, jsOrElse, hparse, ht]

/-- Concrete instance of `analyzeScript_fallback_boundary` with the
`jsonParseModel` parse function and the text `"oops"`. -/
theorem analyzeScript_fallback_boundary_witness :
    analyzeScript jsonParseModel none = .ok [] ∧
    analyzeScript jsonParseModel (some "") = .ok [] ∧
    analyzeScript jsonParseModel (some "oops") = jsonParseModel "oops" :=
  analyzeScript_fallback_boundary jsonParseModel "oops" rfl (by decide)

/-! ## Script submission (`handleScriptSubmit`, part_000 lines 67–88) -/

/-- `sceneData.map((s, idx) => ...)` with the running index made explicit:
`mapIdxFrom f n l` applies `f` to each element of `l` paired with its
index, starting the count at `n`. -/
def mapIdxFrom (f : Nat → SceneData → Scene) : Nat → List SceneData → List Scene
  | _, [] => []
  | n, d :: rest => f n d :: mapIdxFrom f (n + 1) rest

/-- The scene built from one analysis segment at 0-based index `idx`
(part_000 lines 74–81): a fresh id from the UUID source `ids`,
`order: s.order || idx + 1` (JS `||`, so the 1-based fallback applies
when the provider value is absent *or zero*), the segment's description
and dialogue, `storyboardPrompt` initialised to the description, and
`isApproved: false`. -/
def buildScene (ids : Nat → String) (idx : Nat) (d : SceneData) : Scene :=
  { id := ids idx
    order := match d.order with
      | some o => if o = 0 then (idx : Int) + 1 else o
      | none => (idx : Int) + 1
    description := d.description
    dialogue := d.dialogue
    storyboardImageUrl := none
    storyboardPrompt := some d.description
    videoUrl := none
    audioUrl := none
    isApproved := false }

/-- The scene list `handleScriptSubmit` builds from the analysis result,
with `ids` modelling the successive `crypto.randomUUID()` draws (the
call at index `idx` returns `ids idx`). -/
def mkScenes (ids : Nat → String) (sceneData : List SceneData) : List Scene :=
  mapIdxFrom (buildScene ids) 0 sceneData

/-- `handleScriptSubmit` (part_000 lines 67–88): returns unchanged state if
the trimmed script input is empty; otherwise runs the analysis
(`analyze` models `api.analyzeScript` on the script text), and on
success installs the new project; on failure sets the error message.
`setLoading(null)` in `finally` clears the loading flag either way. -/
def handleScriptSubmit (analyze : String → Except String (List SceneData))
    (ids : Nat → String) (st : AppState) : AppState :=
  if jsTrim st.scriptInput = "" then st
  else
    match analyze st.scriptInput with
    | .ok sceneData =>
        { st with
          project := some { title := "My New Animation", script := st.scriptInput,
                            scenes := mkScenes ids sceneData }
          loading := none }
    | .error e =>
        { st with error := some (jsOrElse (some e) "Failed to analyze script")
                  loading := none }

theorem mapIdxFrom_length (f : Nat → SceneData → Scene) :
    ∀ (n : Nat) (l : List SceneData), (mapIdxFrom f n l).length = l.length := by
  intro n l
  induction l generalizing n with
  | nil => rfl
  | cons d rest ih => simp [mapIdxFrom, ih]

theorem mapIdxFrom_getElem? (f : Nat → SceneData → Scene) :
    ∀ (n i : Nat) (l : List SceneData),
      (mapIdxFrom f n l)[i]? = (l[i]?).map (f (n + i)) := by
  intro n i l
  induction l generalizing n i with
  | nil => simp [mapIdxFrom]
  | cons d rest ih =>
      cases i with
      | zero => simp [mapIdxFrom]
      | succ j =>
          simp only [mapIdxFrom, List.getElem?_cons_succ, ih]
          ring_nf

/-- What the (amended) claim asserts about the scene batch built from the
analysis segments `sceneData`: one scene per segment; pairwise-distinct
scene identifiers; every approval flag `false`; and each scene's order
is the provider-returned value when it is present and nonzero, and the
1-based list index otherwise (absent *or zero* provider value). -/
def scenesSpec (sceneData : List SceneData) (scenes : List Scene) : Prop :=
  scenes.length = sceneData.length ∧
  List.Pairwise (fun a b => a.id ≠ b.id) scenes ∧
  (∀ s ∈ scenes, s.isApproved = false) ∧
  (∀ (i : Nat) (d : SceneData), sceneData[i]? = some d →
    ((∃ o, d.order = some o ∧ o ≠ 0 ∧ (scenes[i]?).map Scene.order = some o) ∨
     ((d.order = none ∨ d.order = some 0) ∧
      (scenes[i]?).map Scene.order = some ((i : Int) + 1))))

theorem mkScenes_length (ids : Nat → String) (l : List SceneData) :
    (mkScenes ids l).length = l.length :=
  mapIdxFrom_length _ 0 l

theorem mkScenes_getElem? (ids : Nat → String) (l : List SceneData) (i : Nat) :
    (mkScenes ids l)[i]? = (l[i]?).map (buildScene ids i) := by
  simpa using mapIdxFrom_getElem? (buildScene ids) 0 i l

theorem mkScenes_spec (ids : Nat → String) (hinj : Function.Injective ids)
    (sceneData : List SceneData) : scenesSpec sceneData (mkScenes ids sceneData) := by
  refine ⟨mkScenes_length ids sceneData, ?_, ?_, ?_⟩
  · rw [List.pairwise_iff_getElem]
    intro i j hi hj hij
    have hgi := mkScenes_getElem? ids sceneData i
    have hgj := mkScenes_getElem? ids sceneData j
    rw [List.getElem?_eq_getElem hi] at hgi
    rw [List.getElem?_eq_getElem hj] at hgj
    rw [mkScenes_length] at hi hj
    rw [List.getElem?_eq_getElem (by omega)] at hgi hgj
    simp only [Option.map_some', Option.some.injEq] at hgi hgj
    rw [hgi, hgj]
    intro hid
    exact absurd (hinj hid) (by omega)
  · intro s hs
    obtain ⟨i, hi, hget⟩ := List.mem_iff_getElem.mp hs
    have hg := mkScenes_getElem? ids sceneData i
    rw [List.getElem?_eq_getElem hi] at hg
    rw [mkScenes_length] at hi
    rw [List.getElem?_eq_getElem (by omega)] at hg
    simp only [Option.map_some', Option.some.injEq] at hg
    rw [← hget, hg]
    rfl
  · intro i d hd
    have hg := mkScenes_getElem? ids sceneData i
    rw [hd, Option.map_some'] at hg
    rw [hg]
    cases ho : d.order with
    | none => exact Or.inr ⟨Or.inl rfl, by simp [buildScene, ho]⟩
    | some o =>
        by_cases h0 : o = 0
        · exact Or.inr ⟨Or.inr (by simp [ho, h0]), by simp [buildScene, ho, h0]⟩
        · exact Or.inl ⟨o, rfl, h0, by simp [buildScene, ho, h0]⟩

/-- C6 counterexample: the claim as stated says the fallback index is used
only when the provider order value is absent.  But `order: s.order ||
idx + 1` uses JS truthiness, so the provider-returned value `0` is also
replaced: on the single segment `{order: 0, …}` the created scene has
order `1`, not the provider-returned `0`. -/
theorem mkScenes_order_zero_falsy :
    (mkScenes (fun _ => "u0") [⟨some 0, "desc", "line"⟩]).map Scene.order = [1] ∧
    (mkScenes (fun _ => "u0") [⟨some 0, "desc", "line"⟩]).map Scene.order ≠ [0] := by
  constructor
  · rfl
  · decide

/-- A concrete injective UUID source for witnesses: the `n`-th draw is the
string of `n` copies of `'u'`. -/
def uuidSource (n : Nat) : String := String.mk (List.replicate n 'u')

theorem uuidSource_injective : Function.Injective uuidSource := by
  intro a b h
  have h2 : List.replicate a 'u' = List.replicate b 'u' := congrArg String.data h
  simpa using congrArg List.length h2

/-- C6 (amended): for every successful script analysis producing `N`
segments, the controller installs a project with exactly `N` scenes
whose identifiers are pairwise distinct (given that the UUID source
never repeats), each with approval flag `false`, and with order equal
to the provider-returned order value when that value is present and
nonzero, or the 1-based list index as fallback when the provider value
is absent or zero. -/
theorem handleScriptSubmit_scenes (analyze : String → Except String (List SceneData))
    (ids : Nat → String) (st : AppState) (sceneData : List SceneData)
    (hinj : Function.Injective ids)
    (hin : jsTrim st.scriptInput ≠ "")
    (hok : analyze st.scriptInput = .ok sceneData) :
    ∃ scenes,
      (handleScriptSubmit analyze ids st).project =
        some { title := "My New Animation", script := st.scriptInput, scenes := scenes } ∧
      scenesSpec sceneData scenes := by
  refine ⟨mkScenes ids sceneData, ?_, mkScenes_spec ids hinj sceneData⟩
  simp [handleScriptSubmit, hin, hok]

/-- Concrete instance of `handleScriptSubmit_scenes`: two segments, one
with provider order `5`, one with it absent. -/
theorem handleScriptSubmit_scenes_witness :
    ∃ scenes,
      (handleScriptSubmit
        (fun _ => .ok [⟨some 5, "d1", "g1"⟩, ⟨none, "d2", "g2"⟩]) uuidSource
        { project := none, loading := none, error := none,
          scriptInput := "x", hasApiKey := true }).project =
        some { title := "My New Animation", script := "x", scenes := scenes } ∧
      scenesSpec [⟨some 5, "d1", "g1"⟩, ⟨none, "d2", "g2"⟩] scenes :=
  handleScriptSubmit_scenes
    (fun _ => .ok [⟨some 5, "d1", "g1"⟩, ⟨none, "d2", "g2"⟩]) uuidSource
    { project := none, loading := none, error := none,
      scriptInput := "x", hasApiKey := true }
    [⟨some 5, "d1", "g1"⟩, ⟨none, "d2", "g2"⟩]
    uuidSource_injective (by decide) rfl

/-! ## Bulk storyboard generation (`handleGenerateAllStoryboards`,
part_000 lines 109–129) -/

/-- JS truthiness of `scene.storyboardImageUrl`: the loop's
`if (!scene.storyboardImageUrl)` guard skips a scene exactly when this
is `true`. -/
def hasStoryboardImage (s : Scene) : Bool := truthyStr s.storyboardImageUrl

/-- The prompt sent to image generation for a scene:
`scene.storyboardPrompt || scene.description`. -/
def promptOf (s : Scene) : String := jsOrElse s.storyboardPrompt s.description

/-- The loop body of `handleGenerateAllStoryboards` for the scene list,
with `gen` modelling `api.generateStoryboardImage (prompt, imageSize)`
(the image size is fixed for the whole loop, so `gen` is a function of
the prompt alone; a thrown provider error is `Except.error`).

Returns the final committed scene list (as left by the incremental
`setProject` commits plus the `catch`), the ordered provider-call trace
(each generated prompt, in loop order), and the error from the `catch`
block if the loop was aborted.  A scene whose `storyboardImageUrl` is
JS-truthy is skipped without a call; otherwise the image is generated
and committed before the loop advances, so on a failure every earlier
scene keeps its committed update and the failing scene and its
successors stay unchanged. -/
def runBulk (gen : String → Except String String) :
    List Scene → List Scene × List Call × Option String
  | [] => ([], [], none)
  | s :: rest =>
    if hasStoryboardImage s then
      let r := runBulk gen rest
      (s :: r.1, r.2.1, r.2.2)
    else
      match gen (promptOf s) with
      | .ok url =>
          let r := runBulk gen rest
          ({ s with storyboardImageUrl := some url } :: r.1,
           .genImage (promptOf s) :: r.2.1, r.2.2)
      | .error e => (s :: rest, [.genImage (promptOf s)], some e)

/-- How one scene of the processed prefix ends up after the loop: skipped
unchanged if it already has an image, otherwise updated with its
generated image. -/
def okStep (gen : String → Except String String) (s : Scene) : Scene :=
  if hasStoryboardImage s then s
  else
    match gen (promptOf s) with
    | .ok url => { s with storyboardImageUrl := some url }
    | .error _ => s

/-- The provider calls issued for a fully processed scene list: one image
generation, in list order, for exactly the scenes with no storyboard
image. -/
def callsFor (l : List Scene) : List Call :=
  (l.filter (fun s => !hasStoryboardImage s)).map (fun s => .genImage (promptOf s))

/-- C3: bulk storyboard generation iterates the scenes in their existing
list order and processes a prefix of length `k` (everything, when no
generation fails).  Scenes that already have a storyboard image
reference are never regenerated — they stay unchanged (first conjunct)
and contribute no provider call (`callsFor` filters them out).  The
calls are issued strictly sequentially in list order.  Every processed
scene without an image had a successful generation committed (its new
image survives a later failure), and on failure the failing scene is
the first unprocessed one: it lacks an image, its generation call was
issued and failed, and it and all later scenes are left unchanged. -/
theorem runBulk_sequential_skip_commit (gen : String → Except String String)
    (scenes : List Scene) :
    (∀ i : Nat, (scenes[i]?).map hasStoryboardImage = some true →
      (runBulk gen scenes).1[i]? = scenes[i]?) ∧
    ∃ k, k ≤ scenes.length ∧
      (runBulk gen scenes).1 = (scenes.take k).map (okStep gen) ++ scenes.drop k ∧
      (∀ s ∈ scenes.take k, hasStoryboardImage s = false →
        ∃ url, gen (promptOf s) = .ok url ∧
          okStep gen s = { s with storyboardImageUrl := some url }) ∧
      ((runBulk gen scenes).2.2 = none →
        k = scenes.length ∧ (runBulk gen scenes).2.1 = callsFor scenes) ∧
      (∀ e, (runBulk gen scenes).2.2 = some e →
        ∃ s, scenes[k]? = some s ∧ hasStoryboardImage s = false ∧
          gen (promptOf s) = .error e ∧
          (runBulk gen scenes).2.1 =
            callsFor (scenes.take k) ++ [.genImage (promptOf s)]) := by
  induction scenes with
  | nil =>
      refine ⟨fun i h => by simp at h ⊢, 0, Nat.le_refl 0, by simp [runBulk], ?_, ?_, ?_⟩
      · intro s hs
        simp at hs
      · intro _
        simp [runBulk, callsFor]
      · intro e he
        simp [runBulk] at he
  | cons s rest ih =>
      obtain ⟨ihskip, k, hk, hout, hokpre, hnone, hsome⟩ := ih
      by_cases himg : hasStoryboardImage s
      · -- scene already has an image: skipped, no call
        refine ⟨?_, k + 1, by simpa using hk, ?_, ?_, ?_, ?_⟩
        · intro i hi
          cases i with
          | zero => simp [runBulk, himg]
          | succ j =>
              simp only [List.getElem?_cons_succ] at hi ⊢
              simpa [runBulk, himg] using ihskip j hi
        · simp [runBulk, himg, List.take_succ_cons, List.drop_succ_cons, okStep, hout]
        · intro t ht
          rw [List.take_succ_cons] at ht
          rcases List.mem_cons.mp ht with h | h
          · subst h
            intro hfalse
            rw [himg] at hfalse
            cases hfalse
          · exact hokpre t h
        · intro hnone'
          simp only [runBulk, himg, if_true] at hnone' ⊢
          obtain ⟨hk', hcalls⟩ := hnone hnone'
          refine ⟨by simp [hk'], ?_⟩
          simpa [callsFor, himg] using hcalls
        · intro e he
          simp only [runBulk, himg, if_true] at he ⊢
          obtain ⟨t, hget, htimg, hgen, hcalls⟩ := hsome e he
          exact ⟨t, by simpa using hget, htimg, hgen,
            by simpa [callsFor, List.take_succ_cons, himg] using hcalls⟩
      · cases hgen : gen (promptOf s) with
        | ok url =>
            refine ⟨?_, k + 1, by simpa using hk, ?_, ?_, ?_, ?_⟩
            · intro i hi
              cases i with
              | zero =>
                  simp only [List.getElem?_cons_zero, Option.map_some',
                    Option.some.injEq] at hi
                  exact absurd hi himg
              | succ j =>
                  simp only [List.getElem?_cons_succ] at hi ⊢
                  simpa [runBulk, himg, hgen] using ihskip j hi
            · simp [runBulk, himg, hgen, List.take_succ_cons, List.drop_succ_cons,
                okStep, hout]
            · intro t ht
              rw [List.take_succ_cons] at ht
              rcases List.mem_cons.mp ht with h | h
              · subst h
                intro _
                exact ⟨url, hgen, by simp [okStep, himg, hgen]⟩
              · exact hokpre t h
            · intro hnone'
              simp only [runBulk, himg, hgen] at hnone' ⊢
              obtain ⟨hk', hcalls⟩ := hnone hnone'
              refine ⟨by simp [hk'], ?_⟩
              simp [callsFor, himg, hcalls]
            · intro e he
              simp only [runBulk, himg, hgen] at he ⊢
              obtain ⟨t, hget, htimg, hgen', hcalls⟩ := hsome e he
              exact ⟨t, by simpa using hget, htimg, hgen',
                by simp [callsFor, List.take_succ_cons, himg, hcalls]⟩
        | error e =>
            refine ⟨?_, 0, Nat.zero_le _, ?_, ?_, ?_, ?_⟩
            · intro i hi
              cases i with
              | zero =>
                  simp only [List.getElem?_cons_zero, Option.map_some',
                    Option.some.injEq] at hi
                  exact absurd hi himg
              | succ j =>
                  simp [runBulk, himg, hgen]
            · simp [runBulk, himg, hgen]
            · intro t ht
              simp at ht
            · intro hnone'
              simp [runBulk, himg, hgen] at hnone'
            · intro e' he'
              have hstep : runBulk gen (s :: rest) =
                  (s :: rest, [.genImage (promptOf s)], some e) := by
                simp [runBulk, himg, hgen]
              rw [hstep] at he'
              simp only [Option.some.injEq] at he'
              subst he'
              exact ⟨s, by simp, by simpa using himg, hgen, by simp [hstep, callsFor]⟩

/-- Concrete instance of (a hypothesis-bearing conjunct of)
`runBulk_sequential_skip_commit`: a scene that already carries an image
reference is returned unchanged by the bulk loop. -/
theorem runBulk_sequential_skip_commit_witness :
    (runBulk (fun p => .ok (p ++ "-img"))
      [{ id := "s1", order := 1, description := "d", dialogue := "g",
         storyboardImageUrl := some "have.png", isApproved := false }]).1[0]? =
    some { id := "s1", order := 1, description := "d", dialogue := "g",
           storyboardImageUrl := some "have.png", isApproved := false } :=
  (runBulk_sequential_skip_commit (fun p => .ok (p ++ "-img"))
    [{ id := "s1", order := 1, description := "d", dialogue := "g",
       storyboardImageUrl := some "have.png", isApproved := false }]).1 0 (by decide)

/-! ## Approval toggle (`handleApproveScene`, part_000 lines 131–137) -/

/-- The per-scene lambda of `handleApproveScene`:
`s.id === sceneId ? { ...s, isApproved: !s.isApproved } : s`. -/
def toggleScene (sceneId : String) (s : Scene) : Scene :=
  if s.id == sceneId then { s with isApproved := !s.isApproved } else s

/-- `handleApproveScene`: a pure local mutation of the project state —
flips `isApproved` on every scene whose id matches, touches nothing
else, and issues no provider call (the empty call trace is returned
alongside the state, and the definition takes no provider parameter
because the source handler contains no `api.*` call). -/
def handleApproveScene (st : AppState) (sceneId : String) : AppState × List Call :=
  match st.project with
  | none => (st, [])
  | some p =>
      ({ st with project := some { p with scenes := p.scenes.map (toggleScene sceneId) } },
       [])

theorem toggleScene_involutive (sceneId : String) (s : Scene) :
    toggleScene sceneId (toggleScene sceneId s) = s := by
  by_cases h : s.id == sceneId
  · cases s
    simp [toggleScene, h]
  · simp [toggleScene, h]

theorem toggleScene_map_twice (sceneId : String) (l : List Scene) :
    l.map (toggleScene sceneId ∘ toggleScene sceneId) = l := by
  induction l with
  | nil => rfl
  | cons a l ih => simp [Function.comp, toggleScene_involutive, ih]

/-- C7: toggling a scene's approval flag twice returns the whole
application state (in particular that scene's flag) to its original
value, and each toggle performs no provider call. -/
theorem handleApproveScene_twice (st : AppState) (sceneId : String) :
    (handleApproveScene (handleApproveScene st sceneId).1 sceneId).1 = st ∧
    (handleApproveScene st sceneId).2 = [] ∧
    (handleApproveScene (handleApproveScene st sceneId).1 sceneId).2 = [] := by
  refine ⟨?_, ?_, ?_⟩
  · cases st with
    | mk proj loading err input hasKey =>
        cases proj with
        | none => simp [handleApproveScene]
        | some p =>
            cases p with
            | mk title script scenes => simp [handleApproveScene, toggleScene_map_twice]
  · cases hp : st.project <;> simp [handleApproveScene, hp]
  · cases hp : st.project with
    | none => simp [handleApproveScene, hp]
    | some p => simp [handleApproveScene, hp]

/-! ## Visual-prompt editing (`handleUpdatePrompt`, part_000 lines 139–145) -/

/-- `handleUpdatePrompt`: sets `storyboardPrompt` to the new text on every
scene whose id matches, leaves everything else alone, and issues no
provider call (no provider parameter exists in the source handler). -/
def handleUpdatePrompt (st : AppState) (sceneId newPrompt : String) :
    AppState × List Call :=
  match st.project with
  | none => (st, [])
  | some p =>
      ({ st with
          project := some { p with
            scenes := p.scenes.map (fun s =>
              if s.id == sceneId then { s with storyboardPrompt := some newPrompt }
              else s) } },
       [])

/-- What C8 asserts about a prompt edit on a present project `p`: no
provider call; loading, error, credential flag and script input
untouched; the project keeps its title, script and scene count; every
scene whose id differs from the target is byte-for-byte unchanged; and
a scene with the target id changes exactly its `storyboardPrompt` field
to the new text (the record update keeps the description, dialogue,
media references and approval flag). -/
def updatePromptSpec (st : AppState) (sceneId newPrompt : String) (p : Project) : Prop :=
  (handleUpdatePrompt st sceneId newPrompt).2 = [] ∧
  (handleUpdatePrompt st sceneId newPrompt).1.loading = st.loading ∧
  (handleUpdatePrompt st sceneId newPrompt).1.error = st.error ∧
  (handleUpdatePrompt st sceneId newPrompt).1.hasApiKey = st.hasApiKey ∧
  (handleUpdatePrompt st sceneId newPrompt).1.scriptInput = st.scriptInput ∧
  ∃ scenes',
    (handleUpdatePrompt st sceneId newPrompt).1.project =
      some { title := p.title, script := p.script, scenes := scenes' } ∧
    scenes'.length = p.scenes.length ∧
    (∀ (i : Nat) (s : Scene), p.scenes[i]? = some s → s.id ≠ sceneId →
      scenes'[i]? = some s) ∧
    (∀ (i : Nat) (s : Scene), p.scenes[i]? = some s → s.id = sceneId →
      scenes'[i]? = some { s with storyboardPrompt := some newPrompt })

/-- C8: editing a scene's visual prompt updates only that scene's
`storyboardPrompt` field; its other fields, every other scene, and the
rest of the application state are unchanged, and no provider call is
made. -/
theorem handleUpdatePrompt_frame (st : AppState) (sceneId newPrompt : String)
    (p : Project) (hp : st.project = some p) :
    updatePromptSpec st sceneId newPrompt p := by
  refine ⟨by simp [handleUpdatePrompt, hp], by simp [handleUpdatePrompt, hp],
    by simp [handleUpdatePrompt, hp], by simp [handleUpdatePrompt, hp],
    by simp [handleUpdatePrompt, hp],
    p.scenes.map (fun s =>
      if s.id == sceneId then { s with storyboardPrompt := some newPrompt } else s),
    by simp [handleUpdatePrompt, hp], by simp, ?_, ?_⟩
  · intro i s hs hid
    rw [List.getElem?_map, hs, Option.map_some']
    simp [hid]
  · intro i s hs hid
    rw [List.getElem?_map, hs, Option.map_some']
    simp [hid]

/-- Concrete instance of `handleUpdatePrompt_frame`: a two-scene project,
editing the prompt of scene "a". -/
theorem handleUpdatePrompt_frame_witness :
    updatePromptSpec
      { project := some { title := "T", script := "S", scenes :=
          [{ id := "a", order := 1, description := "d1", dialogue := "g1",
             isApproved := false },
           { id := "b", order := 2, description := "d2", dialogue := "g2",
             isApproved := true }] },
        loading := none, error := none, scriptInput := "", hasApiKey := true }
      "a" "new prompt"
      { title := "T", script := "S", scenes :=
          [{ id := "a", order := 1, description := "d1", dialogue := "g1",
             isApproved := false },
           { id := "b", order := 2, description := "d2", dialogue := "g2",
             isApproved := true }] } :=
  handleUpdatePrompt_frame _ "a" "new prompt" _ rfl

/-! ## Final video production (`handleGenerateFinalVideo`,
part_000 lines 147–173) -/

/-- `Promise.all` over the two provider results: succeeds with both values
when both requests succeed; rejects when either rejects.  (Which of two
rejection reasons wins is a timing matter in JS; the model picks the
video one first.  The theorems below quantify over the joint rejection
message, so nothing depends on that choice.) -/
def promiseAll2 (a b : Except String String) : Except String (String × String) :=
  match a, b with
  | .ok x, .ok y => .ok (x, y)
  | .error e, _ => .error e
  | .ok _, .error e => .error e

/-- The error-message match in the `catch` block:
`err.message.includes("Requested entity was not found")`. -/
def authExpiredMessage : String := "Requested entity was not found"

/-- `JavaScript String.prototype.includes` over character lists:
`pat` occurs contiguously somewhere in `l`. -/
def containsAt (pat : List Char) : List Char → Bool
  | [] => pat.isPrefixOf []
  | c :: rest => pat.isPrefixOf (c :: rest) || containsAt pat rest

/-- JavaScript `s.includes (pat)`. -/
def jsIncludes (s pat : String) : Bool := containsAt pat.data s.data

/-- `handleGenerateFinalVideo` (part_000 lines 147–173).  `videoGen` models
`api.generateSceneVideo (prompt, image)` and `audioGen` models
`api.generateDialogueSpeech (dialogue)`; both calls are started before
either is awaited, and `Promise.all` joins them.  Early returns: no
project, scene id not found, or a JS-falsy `storyboardImageUrl` — in
each of those cases nothing happens at all (the guard sits before
`setLoading`).  On a joint success both media fields of the target
scene are committed in one state update; on a joint failure nothing is
committed, the error is set (with the session-expiry substring match
additionally clearing the credential flag), and `finally` clears the
loading flag. -/
def handleGenerateFinalVideo (videoGen : String → String → Except String String)
    (audioGen : String → Except String String) (st : AppState) (sceneId : String) :
    AppState × List Call :=
  match st.project with
  | none => (st, [])
  | some p =>
      match p.scenes.find? (fun s => s.id == sceneId) with
      | none => (st, [])
      | some scene =>
          if hasStoryboardImage scene then
            let prompt := promptOf scene
            let image := scene.storyboardImageUrl.getD ""
            let calls : List Call := [.genVideo prompt image, .genSpeech scene.dialogue]
            match promiseAll2 (videoGen prompt image) (audioGen scene.dialogue) with
            | .ok (videoUrl, audioUrl) =>
                ({ st with
                    project := some { p with
                      scenes := p.scenes.map (fun s =>
                        if s.id == sceneId then
                          { s with videoUrl := some videoUrl, audioUrl := some audioUrl }
                        else s) }
                    loading := none },
                 calls)
            | .error m =>
                if jsIncludes m authExpiredMessage then
                  ({ st with
                      hasApiKey := false
                      error := some "API Session expired. Please re-select your key."
                      loading := none },
                   calls)
                else
                  ({ st with
                      error := some (jsOrElse (some m) "Animation generation failed")
                      loading := none },
                   calls)
          else (st, [])

/-- Whether the final-video guard passes for `sceneId` in `st`: the project
exists, the scene is found, and its storyboard image reference is
JS-truthy. -/
def sceneHasImage (st : AppState) (sceneId : String) : Bool :=
  match st.project with
  | none => false
  | some p =>
      match p.scenes.find? (fun s => s.id == sceneId) with
      | none => false
      | some scene => hasStoryboardImage scene

/-- C9: requesting final-video production for a scene that lacks a
storyboard image reference — or for a scene id not present, or with no
project at all — is a complete no-op: the returned state is the input
state (project, loading flag and error state included) and no provider
call is issued. -/
theorem handleGenerateFinalVideo_noop (videoGen : String → String → Except String String)
    (audioGen : String → Except String String) (st : AppState) (sceneId : String)
    (h : sceneHasImage st sceneId = false) :
    handleGenerateFinalVideo videoGen audioGen st sceneId = (st, []) := by
  unfold handleGenerateFinalVideo
  cases hp : st.project with
  | none => rfl
  | some p =>
      cases hf : p.scenes.find? (fun s => s.id == sceneId) with
      | none => simp [hf]
      | some scene =>
          have h' : hasStoryboardImage scene = false := by
            simpa [sceneHasImage, hp, hf] using h
          simp [hf, h']

/-- Concrete instance of `handleGenerateFinalVideo_noop`: a one-scene
project whose scene has no storyboard image. -/
theorem handleGenerateFinalVideo_noop_witness :
    handleGenerateFinalVideo (fun _ _ => .ok "v.mp4") (fun _ => .ok "a.wav")
      { project := some { title := "T", script := "S", scenes :=
          [{ id := "s1", order := 1, description := "d", dialogue := "g",
             isApproved := true }] },
        loading := none, error := none, scriptInput := "", hasApiKey := true }
      "s1" =
    ({ project := some { title := "T", script := "S", scenes :=
          [{ id := "s1", order := 1, description := "d", dialogue := "g",
             isApproved := true }] },
       loading := none, error := none, scriptInput := "", hasApiKey := true },
     []) :=
  handleGenerateFinalVideo_noop (fun _ _ => .ok "v.mp4") (fun _ => .ok "a.wav")
    _ "s1" (by decide)

/-- What C4 asserts when the final-video guard passes for `scene` in
project `p`: both provider requests are issued (both appear in the call
trace — each is started before either result is awaited); when both
succeed the scene's `videoUrl` and `audioUrl` are committed together in
a single project update; a failure of either request makes the join
fail; and when the join fails the project state is left exactly as it
was — neither media field is updated. -/
def finalVideoJointSpec (videoGen : String → String → Except String String)
    (audioGen : String → Except String String) (st : AppState) (sceneId : String)
    (p : Project) (scene : Scene) : Prop :=
  (handleGenerateFinalVideo videoGen audioGen st sceneId).2 =
    [.genVideo (promptOf scene) (scene.storyboardImageUrl.getD ""),
     .genSpeech scene.dialogue] ∧
  (∀ v a, videoGen (promptOf scene) (scene.storyboardImageUrl.getD "") = .ok v →
    audioGen scene.dialogue = .ok a →
    (handleGenerateFinalVideo videoGen audioGen st sceneId).1.project =
      some { p with scenes := p.scenes.map (fun s =>
        if s.id == sceneId then { s with videoUrl := some v, audioUrl := some a }
        else s) }) ∧
  (∀ e, videoGen (promptOf scene) (scene.storyboardImageUrl.getD "") = .error e →
    ∃ m, promiseAll2 (videoGen (promptOf scene) (scene.storyboardImageUrl.getD ""))
      (audioGen scene.dialogue) = .error m) ∧
  (∀ e, audioGen scene.dialogue = .error e →
    ∃ m, promiseAll2 (videoGen (promptOf scene) (scene.storyboardImageUrl.getD ""))
      (audioGen scene.dialogue) = .error m) ∧
  (∀ m, promiseAll2 (videoGen (promptOf scene) (scene.storyboardImageUrl.getD ""))
      (audioGen scene.dialogue) = .error m →
    (handleGenerateFinalVideo videoGen audioGen st sceneId).1.project = st.project)

/-- C4: final video+audio production issues the video-generation and
speech-generation requests together, joins both before committing, and
commits `videoUrl` and `audioUrl` together; if either request fails,
the joint result fails, neither field is updated, and the project state
is unchanged. -/
theorem handleGenerateFinalVideo_joint (videoGen : String → String → Except String String)
    (audioGen : String → Except String String) (st : AppState) (sceneId : String)
    (p : Project) (scene : Scene)
    (hp : st.project = some p)
    (hf : p.scenes.find? (fun s => s.id == sceneId) = some scene)
    (himg : hasStoryboardImage scene = true) :
    finalVideoJointSpec videoGen audioGen st sceneId p scene := by
  refine ⟨?_, ?_, ?_, ?_, ?_⟩
  · cases hres : promiseAll2 (videoGen (promptOf scene) (scene.storyboardImageUrl.getD ""))
        (audioGen scene.dialogue) with
    | ok pair =>
        cases pair with
        | mk v a => simp [handleGenerateFinalVideo, hp, hf, himg, hres]
    | error m =>
        by_cases hinc : jsIncludes m authExpiredMessage <;>
          simp [handleGenerateFinalVideo, hp, hf, himg, hres, hinc]
  · intro v a hv ha
    have hres : promiseAll2 (videoGen (promptOf scene) (scene.storyboardImageUrl.getD ""))
        (audioGen scene.dialogue) = .ok (v, a) := by
      simp [promiseAll2, hv, ha]
    simp [handleGenerateFinalVideo, hp, hf, himg, hres]
  · intro e hv
    exact ⟨e, by simp [promiseAll2, hv]⟩
  · intro e ha
    cases hv : videoGen (promptOf scene) (scene.storyboardImageUrl.getD "") with
    | ok v => exact ⟨e, by simp [promiseAll2, hv, ha]⟩
    | error e' => exact ⟨e', by simp [promiseAll2, hv]⟩
  · intro m hres
    rw [hp]
    by_cases hinc : jsIncludes m authExpiredMessage <;>
      simp [handleGenerateFinalVideo, hp, hf, himg, hres, hinc]

/-- A concrete scene carrying a storyboard image, used by witnesses. -/
def demoScene : Scene :=
  { id := "s1", order := 1, description := "d", dialogue := "g",
    storyboardImageUrl := some "img.png", storyboardPrompt := some "p",
    isApproved := true }

/-- A concrete one-scene project. -/
def demoProject : Project := { title := "T", script := "S", scenes := [demoScene] }

/-- A concrete application state holding `demoProject`. -/
def demoState : AppState :=
  { project := some demoProject, loading := none, error := none,
    scriptInput := "", hasApiKey := true }

/-- Concrete instance of `handleGenerateFinalVideo_joint` on `demoState`. -/
theorem handleGenerateFinalVideo_joint_witness :
    finalVideoJointSpec (fun _ _ => .ok "v.mp4") (fun _ => .ok "a.wav")
      demoState "s1" demoProject demoScene :=
  handleGenerateFinalVideo_joint (fun _ _ => .ok "v.mp4") (fun _ => .ok "a.wav")
    demoState "s1" demoProject demoScene rfl (by decide) (by decide)

/-- C5: when the joint final-video result fails with message `m`, the
`catch` block matches `m` against "Requested entity was not found":
on a match the credential-present flag is cleared and the
session-expiry error is surfaced; otherwise the error is surfaced
(JS `||` fallback for an empty message) and the credential flag is left
exactly as it was. -/
theorem handleGenerateFinalVideo_authExpiry
    (videoGen : String → String → Except String String)
    (audioGen : String → Except String String) (st : AppState) (sceneId : String)
    (p : Project) (scene : Scene) (m : String)
    (hp : st.project = some p)
    (hf : p.scenes.find? (fun s => s.id == sceneId) = some scene)
    (himg : hasStoryboardImage scene = true)
    (hm : promiseAll2 (videoGen (promptOf scene) (scene.storyboardImageUrl.getD ""))
      (audioGen scene.dialogue) = .error m) :
    (jsIncludes m authExpiredMessage = true →
      (handleGenerateFinalVideo videoGen audioGen st sceneId).1.hasApiKey = false ∧
      (handleGenerateFinalVideo videoGen audioGen st sceneId).1.error =
        some "API Session expired. Please re-select your key.") ∧
    (jsIncludes m authExpiredMessage = false →
      (handleGenerateFinalVideo videoGen audioGen st sceneId).1.hasApiKey =
        st.hasApiKey ∧
      (handleGenerateFinalVideo videoGen audioGen st sceneId).1.error =
        some (jsOrElse (some m) "Animation generation failed")) := by
  constructor
  · intro hinc
    simp [handleGenerateFinalVideo, hp, hf, himg, hm, hinc]
  · intro hinc
    simp [handleGenerateFinalVideo, hp, hf, himg, hm, hinc]

/-- Concrete instance of `handleGenerateFinalVideo_authExpiry`: the speech
request rejects with the session-expiry message, and the credential
flag is indeed cleared. -/
theorem handleGenerateFinalVideo_authExpiry_witness :
    (handleGenerateFinalVideo (fun _ _ => .ok "v.mp4")
      (fun _ => .error "Requested entity was not found.") demoState "s1").1.hasApiKey =
      false ∧
    (handleGenerateFinalVideo (fun _ _ => .ok "v.mp4")
      (fun _ => .error "Requested entity was not found.") demoState "s1").1.error =
      some "API Session expired. Please re-select your key." :=
  (handleGenerateFinalVideo_authExpiry (fun _ _ => .ok "v.mp4")
    (fun _ => .error "Requested entity was not found.") demoState "s1"
    demoProject demoScene "Requested entity was not found."
    rfl (by decide) (by decide) rfl).1 (by decide)

/-! ## Chat (`chatWithGemini`, geminiService.ts lines 174–186, and
`handleSend`, ChatBot.tsx lines 26–41) -/

/-- `ChatMessage` from types.ts: `role: 'user' | 'model'`. -/
inductive ChatRole where
  | user
  | model
deriving DecidableEq, Repr

/-- `ChatMessage` from types.ts. -/
structure ChatMessage where
  role : ChatRole
  text : String
deriving DecidableEq, Repr

/-- `chatWithGemini`: reads `messages[messages.length - 1]` with no
emptiness guard.  On an empty history that indexing yields `undefined`
and `lastMsg.text` throws a TypeError — modelled as `none`.  Otherwise
only the last message's text is sent (`send` models
`chat.sendMessage`, returning the possibly-undefined `response.text`),
and `response.text || "Sorry, I couldn't process that."` is the
reply. -/
def chatWithGemini (send : String → Option String)
    (messages : List ChatMessage) : Option String :=
  match messages.getLast? with
  | none => none
  | some lastMsg => some (jsOrElse (send lastMsg.text) "Sorry, I couldn't process that.")

/-- The ChatBot component state (ChatBot.tsx lines 9–12), restricted to
the fields `handleSend` touches. -/
structure ChatState where
  messages : List ChatMessage
  input : String
  isTyping : Bool
deriving DecidableEq, Repr

/-- The history `handleSend` passes to `chatWithGemini`:
`[...messages, userMsg]` — the current transcript with the new user
message appended. -/
def sentHistory (st : ChatState) : List ChatMessage :=
  st.messages ++ [{ role := .user, text := st.input }]

/-- `handleSend` (ChatBot.tsx lines 26–41): returns unchanged state on a
blank input; otherwise appends the user message, calls `chatWithGemini`
on the appended history, and appends either the reply or the catch
block's fixed error text.  `setInput('')` and the `finally` clear the
input and the typing flag. -/
def handleSend (send : String → Option String) (st : ChatState) : ChatState :=
  if jsTrim st.input = "" then st
  else
    match chatWithGemini send (sentHistory st) with
    | some reply =>
        { messages := sentHistory st ++ [{ role := .model, text := reply }],
          input := "", isTyping := false }
    | none =>
        { messages := sentHistory st ++
            [{ role := .model, text := "Error: Could not reach the AI assistant." }],
          input := "", isTyping := false }

/-- C10: `chatWithGemini` reads the last element of its message history
without an emptiness guard, so it is undefined (modelled `none`) on the
empty history; but the history its sole caller `handleSend` builds
always has the new user message appended, so it is never empty and
every call from `handleSend` reaches the send step and produces a
reply (`isSome`). -/
theorem chatWithGemini_last_element_safety (send : String → Option String)
    (st : ChatState) :
    chatWithGemini send [] = none ∧
    sentHistory st ≠ [] ∧
    (chatWithGemini send (sentHistory st)).isSome = true := by
  refine ⟨rfl, by simp [sentHistory], ?_⟩
  have h : (sentHistory st).getLast? =
      some ((sentHistory st).getLast (by simp [sentHistory])) :=
    List.getLast?_eq_getLast _ _
  simp [chatWithGemini, h]
